import Mathlib

/-!
# Auto-Claude GLM command & path security gateway — verification development

Shallow embedding of the security-gateway core of the Auto-Claude GLM
repository, together with theorems settling the specification's claims.

The embedded artefacts:

* the Python `-c` inline-code special case of `apps/backend/security/parser.py`,
  as quoted verbatim in `SECURITY_FIX_PYTHON_IMPORTS.md`;
* the policy evaluator, path boundary validator, tool capability filter and
  execution gateway described by the specification (their Python sources are
  not part of the provided tree; those definitions are modelled from the
  spec's words and say so in their doc comments);
* `runPythonSubprocess` from the GitHub subprocess-runner utilities
  (TypeScript), and the `withProject*` middleware from
  `apps/frontend/src/main/ipc-handlers/github/utils/project-middleware.ts`.
-/

namespace AutoClaude

/-! ## String primitives

Executable models of the Python string operations used by
`security/parser.py`: `str.lower`, `str.startswith`, `str.strip().split()`
(whitespace run splitting discarding empties) and `os.path.basename`.
They are written by structural recursion on `List Char` so that every
concrete instance reduces in the kernel. -/

/-- Model of `str.lower` (ASCII case folding, as `str.lower` acts on the
ASCII command names involved). -/
def lowerStr (s : String) : String :=
  String.mk (s.data.map Char.toLower)

/-- `startsWithStr p s` models Python's `s.startswith(p)`. -/
def startsWithStr (p s : String) : Bool :=
  p.data.isPrefixOf s.data

/-- Splits a character list on whitespace runs, accumulating the current
(reversed) token; models Python's `str.split()` with no argument. -/
def splitWsAux : List Char → List Char → List String
  | cur, [] => if cur.isEmpty then [] else [String.mk cur.reverse]
  | cur, c :: rest =>
    if c.isWhitespace then
      if cur.isEmpty then splitWsAux [] rest
      else String.mk cur.reverse :: splitWsAux [] rest
    else splitWsAux (c :: cur) rest

/-- Model of Python's `command_string.strip().split()`: whitespace-delimited
tokens, leading/trailing whitespace ignored (`.split()` with no separator
already ignores it, so the `.strip()` is absorbed). -/
def pySplitWs (s : String) : List String :=
  splitWsAux [] s.data

/-- Model of `os.path.basename`: the suffix after the last `/`.
Note that it strips directory components only — a platform executable
suffix such as `.exe` is left in place. -/
def basename (s : String) : String :=
  String.mk ((s.data.reverse.takeWhile (fun c => c ≠ '/')).reverse)

/-! ## Dialect Normalizer: `security/parser.py` -/

/-- Modelled from the spec: the general tokenizer of
`apps/backend/security/parser.py` is not part of the provided sources (only
the Python `-c` special case is quoted in `SECURITY_FIX_PYTHON_IMPORTS.md`).
Per the spec's normalizer rules, a command line's canonical name is its
leading whitespace-delimited word stripped of its directory path; compound
lines are evaluated per segment by `evalLine` below, so this fallback covers
a single segment. -/
def leadingWord (tokens : List String) : List String :=
  match tokens.head? with
  | some t => [basename t]
  | none => []

/-- The command parser of `apps/backend/security/parser.py`, embedding the
Python `-c` special case exactly as quoted in
`SECURITY_FIX_PYTHON_IMPORTS.md` (lines 31–39):

```python
if cmd_lower.startswith("python ") or cmd_lower.startswith("python3 ")
        or cmd_lower.startswith("python.exe "):
    tokens = command_string.strip().split()
    if len(tokens) >= 2 and tokens[1] == "-c":
        cmd_name = os.path.basename(tokens[0])
        return [cmd_name]
```

When the special case does not fire, the (unprovided) general parser is
modelled by `leadingWord`. -/
def parseCommand (cmd : String) : List String :=
  let cmdLower := lowerStr cmd
  if startsWithStr "python " cmdLower || startsWithStr "python3 " cmdLower ||
      startsWithStr "python.exe " cmdLower then
    let tokens := pySplitWs cmd
    if 2 ≤ tokens.length ∧ tokens.get? 1 = some "-c" then
      [basename (tokens.headD "")]
    else
      leadingWord tokens
  else
    leadingWord (pySplitWs cmd)

/-! ## Command Registry & Policy Evaluator -/

/-- A policy verdict. -/
inductive Verdict where
  | allow
  | deny
deriving DecidableEq, Repr

/-- Outcome of evaluating one canonical command name. -/
structure PolicyDecision where
  verdict : Verdict
  reason : String
deriving DecidableEq, Repr

/-- A named security profile: allow set, deny set. -/
structure SecurityProfile where
  name : String
  allowed : List String
  denied : List String
deriving DecidableEq, Repr

/-- Modelled from the spec: the Command Registry / Policy Evaluator of
`apps/backend/security/` is not part of the provided sources. Per §4.2 of
the spec: (1) canonical name in the deny set → deny, reason "explicitly
denied"; (2) else in the allow set → allow; (3) else → deny, reason
"not in allowlist for this profile". -/
def evaluate (p : SecurityProfile) (name : String) : PolicyDecision :=
  if name ∈ p.denied then ⟨Verdict.deny, "explicitly denied"⟩
  else if name ∈ p.allowed then ⟨Verdict.allow, "allowed"⟩
  else ⟨Verdict.deny, "not in allowlist for this profile"⟩

/-- Modelled from the spec: whole-line evaluation of a compound command.
The evaluator is invoked once per segment produced by the Normalizer; the
line is allowed iff every segment is allowed, and the first denying
segment's decision is surfaced. -/
def evalLine (p : SecurityProfile) : List String → PolicyDecision
  | [] => ⟨Verdict.allow, "allowed"⟩
  | s :: rest =>
    let d := evaluate p s
    if d.verdict = Verdict.deny then d else evalLine p rest

/-! ## Path Boundary Validator -/

/-- An absolute filesystem location as a list of path segments
(`/project/sub` is `["project", "sub"]`). -/
abbrev AbsPath := List String

/-- A requested path: either absolute or relative to the working
directory, with its raw segments (which may contain `.` and `..`). -/
structure ReqPath where
  absolute : Bool
  segs : List String
deriving DecidableEq, Repr

/-- A symbolic-link environment: a finite map from an absolute location to
the absolute target its symlink points at. -/
abbrev SymlinkEnv := List (AbsPath × AbsPath)

/-- Modelled from the spec: canonical path resolution of
`security.validate_path` (not among the provided sources). It walks the
requested segments left to right from a start location, resolving
same-directory segments, parent-directory segments, and symbolic links
(restarting from the filesystem root at a link's absolute target). `fuel`
bounds the number of resolution steps so that symlink cycles terminate;
exhausted fuel resolves to `none`. -/
def resolvePath (fs : SymlinkEnv) : Nat → AbsPath → List String → Option AbsPath
  | 0, _, _ => none
  | _ + 1, cur, [] => some cur
  | fuel + 1, cur, seg :: rest =>
    if seg = "." then resolvePath fs fuel cur rest
    else if seg = ".." then resolvePath fs fuel cur.dropLast rest
    else
      match fs.lookup (cur ++ [seg]) with
      | some target => resolvePath fs fuel [] (target ++ rest)
      | none => resolvePath fs fuel (cur ++ [seg]) rest

/-- Modelled from the spec: the Path Boundary Validator's
`check(jail_root, requested_path)`. The requested path is resolved to
canonical absolute form (relative paths against the working directory
`cwd`, itself assumed canonical) and allowed iff the result is equal to or
a strict descendant of the jail root. -/
def check (fs : SymlinkEnv) (fuel : Nat) (jail cwd : AbsPath) (req : ReqPath) : Bool :=
  match resolvePath fs fuel (if req.absolute then [] else cwd) req.segs with
  | none => false
  | some r => jail.isPrefixOf r

/-! ## Tool Capability Filter -/

/-- A backend's declared capability set. -/
structure BackendCapabilities where
  supports_extended_protocol : Bool
  tools : List String
deriving DecidableEq, Repr

/-- The fixed core-tool list of the GLM clients, from the excerpt in
`PHASE3_IMPLEMENTATION_SUMMARY.md`. -/
def core_tools : List String :=
  ["Read", "Write", "Edit", "Glob", "Grep", "Bash", "WebFetch", "WebSearch"]

/-- Modelled from the spec: the Tool Capability Filter. When the backend
supports the extended protocol its full declared tool set is exposed;
otherwise the declared set is intersected with the fixed core list, as the
excerpt in `PHASE3_IMPLEMENTATION_SUMMARY.md` shows:
`allowed_tools = [t for t in config.get("tools", []) if t in core_tools]`. -/
def filterTools (coreTools : List String) (be : BackendCapabilities) : List String :=
  if be.supports_extended_protocol then be.tools
  else be.tools.filter (fun t => decide (t ∈ coreTools))

/-! ## Execution Gateway -/

/-- Terminal outcome of executing one proposed action. -/
inductive ExecOutcome where
  | completed (stdout stderr : String) (exitCode : Int)
  | timedOut
  | denied (reason : String)
deriving DecidableEq, Repr

/-- Abstracted behaviour of the spawned process: its wall-clock duration
in seconds and what it would produce if allowed to finish. -/
structure ProcBehavior where
  duration : Nat
  stdout : String
  stderr : String
  exitCode : Int
deriving DecidableEq, Repr

/-- Gateway result: the terminal outcome plus whether no child process is
left running (on timeout the child is killed; on deny none was spawned). -/
structure GatewayResult where
  outcome : ExecOutcome
  childTerminated : Bool
deriving DecidableEq, Repr

/-- The default wall-clock timeout of the Bash executor, in seconds
(`PHASE2_COMPLETE.md`: "Timeout support (default: 300s)"). -/
def defaultTimeoutSeconds : Nat := 300

/-- Modelled from the spec: the Execution Gateway (`glm_tools/bash.py` is
not among the provided sources). It refuses denied decisions without
spawning, enforces a hard wall-clock timeout for allowed ones (killing the
child on expiry), and otherwise returns the captured output. -/
def execute (d : PolicyDecision) (behavior : ProcBehavior) (timeout : Nat) : GatewayResult :=
  if d.verdict = Verdict.deny then ⟨ExecOutcome.denied d.reason, true⟩
  else if timeout < behavior.duration then ⟨ExecOutcome.timedOut, true⟩
  else ⟨ExecOutcome.completed behavior.stdout behavior.stderr behavior.exitCode, true⟩

/-! ## Subprocess runner (`runPythonSubprocess`, TypeScript)

The runner wraps `child_process.spawn` in a `Promise` that is resolved (never
rejected) from two event handlers: `close` (with the child's exit code,
possibly `null`, and the accumulated stdout/stderr) and `error` (spawn
failure). The terminal event the child produces is embedded as `ChildEvent`;
the optional `onComplete` callback, which in TypeScript may throw, is
embedded as a function into `Except String` (the thrown message on the
left). The promise always resolving with a structured value corresponds to
`runPythonSubprocess` being a total function into `SubprocessResult`. -/

/-- The terminal event delivered for one spawned child: a `close` event
carrying the exit code (`null` embedded as `none`) and the accumulated
stdout/stderr, or an `error` event carrying the spawn error message and
whatever output had accumulated. -/
inductive ChildEvent where
  | close (code : Option Int) (stdout stderr : String)
  | spawnError (message : String) (stdout stderr : String)
deriving DecidableEq, Repr

/-- Result from a subprocess execution, mirroring the `SubprocessResult<T>`
interface: `data` and `error` are optional fields. -/
structure SubprocessResult (T : Type) where
  success : Bool
  exitCode : Int
  stdout : String
  stderr : String
  data : Option T
  error : Option String
deriving DecidableEq, Repr

/-- `runPythonSubprocess`, embedded from the `close`/`error` handlers of
`runPythonSubprocess` in the GitHub subprocess-runner utilities:
`const exitCode = code ?? 0`; on exit code 0 the optional `onComplete`
callback is run inside `try` — its result becomes `data` on success, its
thrown message becomes `error` with `success: false`; on a non-zero exit
`error` is the captured stderr if non-empty, else
`"Process failed with code <exitCode>"`; on a spawn `error` event the
result has `exitCode: -1` and the error message. Every branch resolves
with a structured result. -/
def runPythonSubprocess {T : Type} (onComplete : Option (String → String → Except String T))
    (ev : ChildEvent) : SubprocessResult T :=
  match ev with
  | ChildEvent.close code out err =>
    let exitCode := code.getD 0
    if exitCode = 0 then
      match onComplete with
      | some f =>
        match f out err with
        | Except.ok d => ⟨true, exitCode, out, err, some d, none⟩
        | Except.error msg => ⟨false, exitCode, out, err, none, some msg⟩
      | none => ⟨true, exitCode, out, err, none, none⟩
    else
      let errorMessage := if err = "" then "Process failed with code " ++ toString exitCode else err
      ⟨false, exitCode, out, err, none, some errorMessage⟩
  | ChildEvent.spawnError msg out err => ⟨false, -1, out, err, none, some msg⟩

/-- The success condition as the claim states it: the child closed with
exit code 0 (a `null` code counting as 0) and the `onComplete` callback,
if present, did not throw. Stated from the spec's words, to be compared
with the embedded `runPythonSubprocess`. -/
def successSpec {T : Type} (onComplete : Option (String → String → Except String T))
    (ev : ChildEvent) : Prop :=
  ∃ code out err, ev = ChildEvent.close code out err ∧ code.getD 0 = 0 ∧
    ∀ f, onComplete = some f → ∃ d, f out err = Except.ok d

/-- The error field as the claim states it: the `onComplete` exception
message, the captured stderr or `"Process failed with code <exitCode>"`
for a non-zero exit, or the spawn error message; `none` on success.
Stated from the spec's words, to be compared with the embedded
`runPythonSubprocess`. -/
def errorSpec {T : Type} (onComplete : Option (String → String → Except String T))
    (ev : ChildEvent) : Option String :=
  match ev with
  | ChildEvent.spawnError msg _ _ => some msg
  | ChildEvent.close code out err =>
    let exitCode := code.getD 0
    if exitCode = 0 then
      match onComplete with
      | some f =>
        match f out err with
        | Except.ok _ => none
        | Except.error msg => some msg
      | none => none
    else some (if err = "" then "Process failed with code " ++ toString exitCode else err)

/-! ## Project middleware (`project-middleware.ts`)

The five `withProject*` helpers all start from
`projectStore.getProject(projectId)`; the store is embedded as a function
`String → Option P` (`undefined` as `none`), the `Project` type as an
arbitrary type `P`, and a handler as a function `P → T`. An async handler's
promise resolving with `t` is embedded as the value `t`; a thrown error /
rejected promise is embedded as `Except.error` carrying the message. -/

/-- `withProject`: throws `Project not found: <projectId>` when the store
has no such project, otherwise returns the handler's result. -/
def withProject {P T : Type} (getProject : String → Option P) (projectId : String)
    (handler : P → T) : Except String T :=
  match getProject projectId with
  | none => Except.error ("Project not found: " ++ projectId)
  | some p => Except.ok (handler p)

/-- `withProjectOrNull`: returns `null` when the store has no such
project, otherwise the handler's result. -/
def withProjectOrNull {P T : Type} (getProject : String → Option P) (projectId : String)
    (handler : P → T) : Option T :=
  match getProject projectId with
  | none => none
  | some p => some (handler p)

/-- `withProjectOrDefault`: returns the supplied default value when the
store has no such project, otherwise the handler's result. -/
def withProjectOrDefault {P T : Type} (getProject : String → Option P) (projectId : String)
    (defaultValue : T) (handler : P → T) : T :=
  match getProject projectId with
  | none => defaultValue
  | some p => handler p

/-- `withProjectSync`: synchronous variant of `withProject` with the same
missing-project error. -/
def withProjectSync {P T : Type} (getProject : String → Option P) (projectId : String)
    (handler : P → T) : Except String T :=
  match getProject projectId with
  | none => Except.error ("Project not found: " ++ projectId)
  | some p => Except.ok (handler p)

/-- `withProjectSyncOrNull`: synchronous variant of `withProjectOrNull`. -/
def withProjectSyncOrNull {P T : Type} (getProject : String → Option P) (projectId : String)
    (handler : P → T) : Option T :=
  match getProject projectId with
  | none => none
  | some p => some (handler p)

/-! ## Theorems -/

/-- Shared helper: whenever the Python `-c` guard of `parseCommand` fires
and tokenization yields `w0 :: "-c" :: rest`, the parser returns the single
canonical name `basename w0` without touching `rest`. -/
theorem parseCommand_dashc (cmd w0 : String) (rest : List String)
    (hguard : (startsWithStr "python " (lowerStr cmd) ||
        startsWithStr "python3 " (lowerStr cmd) ||
        startsWithStr "python.exe " (lowerStr cmd)) = true)
    (htok : pySplitWs cmd = w0 :: "-c" :: rest) :
    parseCommand cmd = [basename w0] := by
  have hcond : 2 ≤ (w0 :: "-c" :: rest).length ∧
      (w0 :: "-c" :: rest).get? 1 = some "-c" := by
    constructor
    · simp [List.length_cons]
    · rfl
  simp only [parseCommand, hguard, htok, if_true, if_pos hcond]
  rfl

/-- C1: a command string invoking `python`/`python3`/`python.exe` with the
inline-code flag `-c` normalizes to exactly one canonical command name —
the interpreter token's base name — and the inline payload tokens are never
turned into further canonical command names, so the canonical-name list
never contains a payload keyword such as `import`. -/
theorem python_inline_code_not_tokenized (cmd w0 : String) (rest : List String)
    (hguard : (startsWithStr "python " (lowerStr cmd) ||
        startsWithStr "python3 " (lowerStr cmd) ||
        startsWithStr "python.exe " (lowerStr cmd)) = true)
    (htok : pySplitWs cmd = w0 :: "-c" :: rest)
    (hw0 : w0 = "python" ∨ w0 = "python3" ∨ w0 = "python.exe") :
    parseCommand cmd = [w0] ∧ (parseCommand cmd).length = 1 ∧
      "import" ∉ parseCommand cmd := by
  have hp := parseCommand_dashc cmd w0 rest hguard htok
  have hbase : basename w0 = w0 := by
    rcases hw0 with h | h | h <;> subst h <;> decide
  rw [hp, hbase]
  refine ⟨rfl, rfl, ?_⟩
  rcases hw0 with h | h | h <;> subst h <;> decide

/-- Witness for C1 at the command string of the original bug report. -/
theorem python_inline_code_not_tokenized_witness :
    parseCommand "python -c \"from gui_wrapper import IcoConverterGUI; import sys; sys.exit(0)\"" =
      ["python"] :=
  (python_inline_code_not_tokenized
    "python -c \"from gui_wrapper import IcoConverterGUI; import sys; sys.exit(0)\""
    "python" ["\"from", "gui_wrapper", "import", "IcoConverterGUI;", "import", "sys;", "sys.exit(0)\""]
    (by decide) (by decide) (Or.inl rfl)).1

/-- C5 counterexample: `python.exe -c "from pathlib import Path"` does not
normalize to the bare interpreter name `python` — the parser returns
`["python.exe"]`, retaining the platform executable suffix, exactly as the
verification table in `SECURITY_FIX_PYTHON_IMPORTS.md` records
(`python.exe -c "from pathlib import Path"` → `['python.exe']`). -/
theorem python_exe_suffix_not_stripped :
    parseCommand "python.exe -c \"from pathlib import Path\"" = ["python.exe"] ∧
      parseCommand "python.exe -c \"from pathlib import Path\"" ≠ ["python"] := by
  constructor <;> decide

/-- C5 as amended: for an interpreter referenced with `python`, `python3`
or `python.exe` and the inline-code flag, the canonical command name is the
leading token's base name — the directory path is stripped by
`os.path.basename`, but a platform executable suffix is retained, so
`python.exe` maps to the policy entry `python.exe`, not `python`. -/
theorem canonical_name_basename_keeps_suffix :
    (∀ (cmd w0 : String) (rest : List String),
      (startsWithStr "python " (lowerStr cmd) ||
          startsWithStr "python3 " (lowerStr cmd) ||
          startsWithStr "python.exe " (lowerStr cmd)) = true →
      pySplitWs cmd = w0 :: "-c" :: rest →
      parseCommand cmd = [basename w0]) ∧
    basename "/usr/bin/python" = "python" ∧
    basename "python.exe" = "python.exe" := by
  refine ⟨?_, by decide, by decide⟩
  intro cmd w0 rest hguard htok
  exact parseCommand_dashc cmd w0 rest hguard htok

/-- Witness for the amended C5 at `python.exe -c "import sys"`. -/
theorem canonical_name_basename_keeps_suffix_witness :
    parseCommand "python.exe -c \"import sys\"" = [basename "python.exe"] :=
  canonical_name_basename_keeps_suffix.1 "python.exe -c \"import sys\""
    "python.exe" ["\"import", "sys\""] (by decide) (by decide)

/-- C2: for a canonical command name in neither the active profile's allow
set nor its deny set, the Policy Evaluator's verdict is deny with reason
"not in allowlist for this profile" (default-deny). -/
theorem evaluate_default_deny (p : SecurityProfile) (name : String)
    (hna : name ∉ p.allowed) (hnd : name ∉ p.denied) :
    evaluate p name = ⟨Verdict.deny, "not in allowlist for this profile"⟩ := by
  simp [evaluate, hna, hnd]

/-- Witness for C2: `rm` under a strict profile allowing only
`read-file-cmd` and `list-cmd`. -/
theorem evaluate_default_deny_witness :
    evaluate ⟨"strict", ["read-file-cmd", "list-cmd"], []⟩ "rm" =
      ⟨Verdict.deny, "not in allowlist for this profile"⟩ :=
  evaluate_default_deny ⟨"strict", ["read-file-cmd", "list-cmd"], []⟩ "rm"
    (by decide) (by decide)

/-- C3: the Path Boundary Validator allows a request iff the canonical
resolution of the requested path (resolving `.`, `..` and symlinks) is
equal to or a strict descendant of the jail root; in particular, with jail
root `/project`, `sub/../sub/file.txt` is allowed, `../secrets.txt` is
denied, and a symlink `/project/link → /etc/passwd` inside the jail is
denied. -/
theorem check_allows_iff_within_jail :
    (∀ (fs : SymlinkEnv) (fuel : Nat) (jail cwd : AbsPath) (req : ReqPath),
      check fs fuel jail cwd req = true ↔
        ∃ r, resolvePath fs fuel (if req.absolute then [] else cwd) req.segs = some r ∧
          jail.isPrefixOf r = true) ∧
    check [] 100 ["project"] ["project"] ⟨false, ["sub", "..", "sub", "file.txt"]⟩ = true ∧
    check [] 100 ["project"] ["project"] ⟨false, ["..", "secrets.txt"]⟩ = false ∧
    check [(["project", "link"], ["etc", "passwd"])] 100 ["project"] ["project"]
      ⟨false, ["link"]⟩ = false := by
  refine ⟨?_, by decide, by decide, by decide⟩
  intro fs fuel jail cwd req
  unfold check
  cases hres : resolvePath fs fuel (if req.absolute then [] else cwd) req.segs with
  | none => simp
  | some r => simp

/-- Witness for C3: a resolved in-jail path is allowed via the
characterization. -/
theorem check_allows_iff_within_jail_witness :
    check [] 100 ["project"] ["project"] ⟨false, ["sub", "file.txt"]⟩ = true :=
  (check_allows_iff_within_jail.1 [] 100 ["project"] ["project"]
    ⟨false, ["sub", "file.txt"]⟩).mpr
    ⟨["project", "sub", "file.txt"], by decide, by decide⟩

/-- C4: the whole-line decision for a compound command is allow iff every
segment's decision is allow, and when any segment denies, the surfaced
decision (hence the reason) is that of the first denying segment. -/
theorem evalLine_conjunction_first_deny (p : SecurityProfile) (segs : List String) :
    ((evalLine p segs).verdict = Verdict.allow ↔
      ∀ s ∈ segs, (evaluate p s).verdict = Verdict.allow) ∧
    ∀ s₀, segs.find? (fun s => decide ((evaluate p s).verdict = Verdict.deny)) = some s₀ →
      evalLine p segs = evaluate p s₀ := by
  induction segs with
  | nil =>
    refine ⟨by simp [evalLine], ?_⟩
    intro s₀ h
    simp at h
  | cons s rest ih =>
    by_cases hd : (evaluate p s).verdict = Verdict.deny
    · have he : evalLine p (s :: rest) = evaluate p s := by
        simp [evalLine, hd]
      constructor
      · rw [he]
        constructor
        · intro h
          rw [h] at hd
          exact absurd hd (by decide)
        · intro h
          exact h s (List.mem_cons_self s rest)
      · intro s₀ h
        rw [List.find?_cons_of_pos rest (by simp [hd])] at h
        injection h with h
        rw [← h, he]
    · have ha : (evaluate p s).verdict = Verdict.allow := by
        cases hv : (evaluate p s).verdict
        · rfl
        · exact absurd hv hd
      have he : evalLine p (s :: rest) = evalLine p rest := by
        simp [evalLine, hd]
      constructor
      · rw [he, ih.1]
        constructor
        · intro h s' hs'
          rcases List.mem_cons.mp hs' with h' | h'
          · rw [h']
            exact ha
          · exact h s' h'
        · intro h s' hs'
          exact h s' (List.mem_cons_of_mem s hs')
      · intro s₀ h
        rw [List.find?_cons_of_neg rest (by simp [hd])] at h
        rw [he]
        exact ih.2 s₀ h

/-- Witness for C4: the two-segment line `ls && rm` under a profile
allowing only `ls` surfaces the denying segment `rm`'s decision. -/
theorem evalLine_conjunction_first_deny_witness :
    evalLine ⟨"strict", ["ls"], []⟩ ["ls", "rm"] =
      ⟨Verdict.deny, "not in allowlist for this profile"⟩ := by
  have h := (evalLine_conjunction_first_deny ⟨"strict", ["ls"], []⟩ ["ls", "rm"]).2
    "rm" (by decide)
  rw [h]
  decide

/-- C6: the Tool Capability Filter exposes a backend's full declared tool
set when the extended protocol is supported, and otherwise exactly the
intersection of the declared set with the core-tool list; in particular a
backend with `supports_extended_protocol = false` declaring
`{read-file, run-command, external-tool-X}` is exposed exactly
`{read-file, run-command}` when the core list excludes `external-tool-X`. -/
theorem filterTools_narrowing (coreTools : List String) (be : BackendCapabilities) :
    (be.supports_extended_protocol = true → filterTools coreTools be = be.tools) ∧
    (be.supports_extended_protocol = false →
      ∀ t, t ∈ filterTools coreTools be ↔ t ∈ be.tools ∧ t ∈ coreTools) ∧
    filterTools
      ["read-file", "write-file", "edit-file", "glob-search", "content-search",
        "run-command", "fetch-url", "web-search"]
      ⟨false, ["read-file", "run-command", "external-tool-X"]⟩ =
      ["read-file", "run-command"] := by
  refine ⟨?_, ?_, by decide⟩
  · intro h
    simp [filterTools, h]
  · intro h t
    simp [filterTools, h, List.mem_filter]

/-- Witness for C6: a backend supporting the extended protocol keeps its
declared set. -/
theorem filterTools_narrowing_witness :
    filterTools core_tools ⟨true, ["Read", "mcp-external"]⟩ = ["Read", "mcp-external"] :=
  (filterTools_narrowing core_tools ⟨true, ["Read", "mcp-external"]⟩).1 rfl

/-- C7: an allowed action whose wall-clock duration exceeds the configured
timeout yields the `timedOut` terminal result — never the process's
completed output — and the child process is terminated, leaving no orphan. -/
theorem execute_timeout (d : PolicyDecision) (b : ProcBehavior) (timeout : Nat)
    (hv : d.verdict = Verdict.allow) (ht : timeout < b.duration) :
    execute d b timeout = ⟨ExecOutcome.timedOut, true⟩ ∧
      ∀ o e c, (execute d b timeout).outcome ≠ ExecOutcome.completed o e c := by
  have he : execute d b timeout = ⟨ExecOutcome.timedOut, true⟩ := by
    simp [execute, hv, ht]
  refine ⟨he, ?_⟩
  intro o e c
  rw [he]
  simp

/-- Witness for C7: a 301-second process under the default 300-second
timeout. -/
theorem execute_timeout_witness :
    execute ⟨Verdict.allow, "allowed"⟩ ⟨301, "late output", "", 0⟩ defaultTimeoutSeconds =
      ⟨ExecOutcome.timedOut, true⟩ :=
  (execute_timeout ⟨Verdict.allow, "allowed"⟩ ⟨301, "late output", "", 0⟩
    defaultTimeoutSeconds rfl (by decide)).1

/-- C8: `runPythonSubprocess` is a total function into `SubprocessResult`
— the promise always resolves with a structured value and never rejects:
for every terminal child event (including spawn failure) and every
`onComplete` callback (including a throwing one), the result is either a
success with no error field or a failure carrying an error message. -/
theorem runPythonSubprocess_total_structured {T : Type}
    (onComplete : Option (String → String → Except String T)) (ev : ChildEvent) :
    ((runPythonSubprocess onComplete ev).success = true ∧
      (runPythonSubprocess onComplete ev).error = none) ∨
    ((runPythonSubprocess onComplete ev).success = false ∧
      ∃ m, (runPythonSubprocess onComplete ev).error = some m) := by
  cases ev with
  | spawnError m o e =>
    right
    exact ⟨rfl, m, rfl⟩
  | close code out err =>
    by_cases h0 : code.getD 0 = 0
    · cases onComplete with
      | none =>
        left
        simp [runPythonSubprocess, h0]
      | some f =>
        cases hf : f out err with
        | ok d =>
          left
          simp [runPythonSubprocess, h0, hf]
        | error m =>
          right
          simp [runPythonSubprocess, h0, hf]
    · right
      simp [runPythonSubprocess, h0]

/-- C9: the five `withProject*` middleware helpers. When the project store
has no entry for `projectId`, `withProject` and `withProjectSync` throw
`Project not found: <projectId>` independently of the handler,
`withProjectOrNull` and `withProjectSyncOrNull` return `null` independently
of the handler, and `withProjectOrDefault` returns the supplied default;
when the project exists, each returns exactly the handler's result on it. -/
theorem withProject_middleware_spec (P T : Type) (getProject : String → Option P)
    (projectId : String) :
    (getProject projectId = none →
      (∀ handler : P → T, withProject getProject projectId handler =
        Except.error ("Project not found: " ++ projectId)) ∧
      (∀ handler : P → T, withProjectSync getProject projectId handler =
        Except.error ("Project not found: " ++ projectId)) ∧
      (∀ handler : P → T, withProjectOrNull getProject projectId handler = none) ∧
      (∀ handler : P → T, withProjectSyncOrNull getProject projectId handler = none) ∧
      (∀ (d : T) (handler : P → T),
        withProjectOrDefault getProject projectId d handler = d)) ∧
    ∀ p, getProject projectId = some p →
      (∀ handler : P → T, withProject getProject projectId handler =
        Except.ok (handler p)) ∧
      (∀ handler : P → T, withProjectSync getProject projectId handler =
        Except.ok (handler p)) ∧
      (∀ handler : P → T, withProjectOrNull getProject projectId handler =
        some (handler p)) ∧
      (∀ handler : P → T, withProjectSyncOrNull getProject projectId handler =
        some (handler p)) ∧
      (∀ (d : T) (handler : P → T),
        withProjectOrDefault getProject projectId d handler = handler p) := by
  constructor
  · intro hnone
    refine ⟨fun handler => ?_, fun handler => ?_, fun handler => ?_,
      fun handler => ?_, fun d handler => ?_⟩ <;>
      simp [withProject, withProjectSync, withProjectOrNull,
        withProjectSyncOrNull, withProjectOrDefault, hnone]
  · intro p hsome
    refine ⟨fun handler => ?_, fun handler => ?_, fun handler => ?_,
      fun handler => ?_, fun d handler => ?_⟩ <;>
      simp [withProject, withProjectSync, withProjectOrNull,
        withProjectSyncOrNull, withProjectOrDefault, hsome]

/-- Witness for C9 on a two-project store. -/
theorem withProject_middleware_spec_witness :
    withProject (fun s => if s = "p1" then some 7 else none) "p2" (fun n => n + 1) =
      Except.error "Project not found: p2" ∧
    withProjectOrDefault (fun s => if s = "p1" then some 7 else none) "p2" 42
      (fun n => n + 1) = 42 ∧
    withProject (fun s => if s = "p1" then some 7 else none) "p1" (fun n => n + 1) =
      Except.ok 8 := by
  have hm := withProject_middleware_spec Nat Nat
    (fun s => if s = "p1" then some 7 else none)
  refine ⟨?_, ?_, ?_⟩
  · exact ((hm "p2").1 (by decide)).1 (fun n => n + 1)
  · exact ((hm "p2").1 (by decide)).2.2.2.2 42 (fun n => n + 1)
  · exact ((hm "p1").2 7 (by decide)).1 (fun n => n + 1)

/-- C10: a subprocess result has `success = true` iff the child closed with
exit code 0 (`null` treated as 0) and the `onComplete` callback did not
throw; in every other case `success = false` and the `error` field carries
the message the claim describes (`errorSpec`): the `onComplete` exception
message, the captured stderr or `Process failed with code <exitCode>` on a
non-zero exit, or the spawn error message with `exitCode = -1`. -/
theorem runPythonSubprocess_success_iff {T : Type}
    (onComplete : Option (String → String → Except String T)) (ev : ChildEvent) :
    ((runPythonSubprocess onComplete ev).success = true ↔ successSpec onComplete ev) ∧
    (runPythonSubprocess onComplete ev).error = errorSpec onComplete ev ∧
    ((runPythonSubprocess onComplete ev).success = true ↔
      (runPythonSubprocess onComplete ev).error = none) ∧
    ∀ m o e, ev = ChildEvent.spawnError m o e →
      (runPythonSubprocess onComplete ev).exitCode = -1 := by
  cases ev with
  | spawnError m o e =>
    refine ⟨?_, rfl, by simp [runPythonSubprocess], fun _ _ _ _ => rfl⟩
    constructor
    · intro h
      simp [runPythonSubprocess] at h
    · rintro ⟨code, out, err, heq, -, -⟩
      cases heq
  | close code out err =>
    by_cases h0 : code.getD 0 = 0
    · cases onComplete with
      | none =>
        refine ⟨?_, ?_, ?_, ?_⟩
        · constructor
          · intro _
            exact ⟨code, out, err, rfl, h0, fun f hf => by cases hf⟩
          · intro _
            simp [runPythonSubprocess, h0]
        · simp [runPythonSubprocess, errorSpec, h0]
        · simp [runPythonSubprocess, h0]
        · intro m o e heq
          cases heq
      | some f =>
        cases hf : f out err with
        | ok d =>
          refine ⟨?_, ?_, ?_, ?_⟩
          · constructor
            · intro _
              refine ⟨code, out, err, rfl, h0, fun g hg => ?_⟩
              injection hg with hg
              subst hg
              exact ⟨d, hf⟩
            · intro _
              simp [runPythonSubprocess, h0, hf]
          · simp [runPythonSubprocess, errorSpec, h0, hf]
          · simp [runPythonSubprocess, h0, hf]
          · intro m o e heq
            cases heq
        | error msg =>
          refine ⟨?_, ?_, ?_, ?_⟩
          · constructor
            · intro h
              simp [runPythonSubprocess, h0, hf] at h
            · rintro ⟨code', out', err', heq, -, hall⟩
              injection heq with h1 h2 h3
              subst h1
              subst h2
              subst h3
              obtain ⟨d, hd⟩ := hall f rfl
              rw [hf] at hd
              cases hd
          · simp [runPythonSubprocess, errorSpec, h0, hf]
          · simp [runPythonSubprocess, h0, hf]
          · intro m o e heq
            cases heq
    · refine ⟨?_, ?_, ?_, ?_⟩
      · constructor
        · intro h
          simp [runPythonSubprocess, h0] at h
        · rintro ⟨code', out', err', heq, h0', -⟩
          injection heq with h1 h2 h3
          subst h1
          exact absurd h0' h0
      · simp [runPythonSubprocess, errorSpec, h0]
      · simp [runPythonSubprocess, h0]
      · intro m o e heq
        cases heq

/-- Witness for C10: a zero-exit close event with a non-throwing callback
succeeds. -/
theorem runPythonSubprocess_success_iff_witness :
    (runPythonSubprocess (T := String) (some fun o _ => Except.ok o)
      (ChildEvent.close none "hi" "")).success = true := by
  apply (runPythonSubprocess_success_iff (T := String) (some fun o _ => Except.ok o)
    (ChildEvent.close none "hi" "")).1.mpr
  refine ⟨none, "hi", "", rfl, rfl, fun g hg => ?_⟩
  injection hg with hg
  subst hg
  exact ⟨"hi", rfl⟩

end AutoClaude
